import Mathlib

/-!
# Verification of the Diagnyx SDK telemetry core (Rust client)

Shallow embedding of `src/rust/src/client.rs`, `src/rust/src/types.rs` and
`src/rust/src/error.rs`: the buffering + scheduling + resilient-delivery
engine of the telemetry shipping library.

Modelling conventions:
* machine integers become `Nat`/`Int` (no overflow is relevant at the sizes
  involved);
* `DateTime<Utc>` is modelled as an `Int` timestamp whose `default()` is `0`;
* a fallible Rust operation (a `panic!`/`expect`) becomes an `Option`;
* each HTTP attempt's outcome is drawn from an oracle
  `responses : Nat -> AttemptOutcome` (attempt index, 0-based);
* the mutex-guarded buffer becomes explicit state threading; records that
  other producers append while a delivery attempt is in flight are passed
  explicitly as a `concurrent` list.
-/

namespace Diagnyx

/-- `Provider` enum from `types.rs` (serde `rename_all = "lowercase"`). -/
inductive Provider where
  | openAI
  | anthropic
  | google
  | azure
  | aws
  | custom
  deriving DecidableEq, Repr

/-- `CallStatus` enum from `types.rs` (serde `rename_all = "snake_case"`). -/
inductive CallStatus where
  | success
  | error
  | timeout
  | rateLimited
  deriving DecidableEq, Repr

/-- JSON values, the target of the serde serialization model. -/
inductive Json where
  | null
  | str (s : String)
  | num (n : Int)
  | bool (b : Bool)
  | arr (xs : List Json)
  | obj (fields : List (String × Json))

/-- `LLMCall` struct from `types.rs`. `metadata` (a
`HashMap<String, serde_json::Value>`) is modelled as an association list of
JSON values; `timestamp` is the abstract `Int` datetime. -/
structure LLMCall where
  provider : Provider
  model : String
  endpoint : Option String
  input_tokens : Int
  output_tokens : Int
  latency_ms : Int
  ttft_ms : Option Int
  status : CallStatus
  error_code : Option String
  error_message : Option String
  project_id : Option String
  environment : Option String
  user_identifier : Option String
  trace_id : Option String
  span_id : Option String
  metadata : Option (List (String × Json))
  timestamp : Int
  full_prompt : Option String
  full_response : Option String

/-- `DiagnyxConfig` struct from `types.rs`. -/
structure DiagnyxConfig where
  api_key : String
  base_url : String
  batch_size : Nat
  flush_interval_ms : Nat
  max_retries : Nat
  debug : Bool
  capture_full_content : Bool
  content_max_length : Nat
  deriving DecidableEq, Repr

/-- `DiagnyxConfig::new`: the default configuration for a given API key. -/
def DiagnyxConfig.new (api_key : String) : DiagnyxConfig where
  api_key := api_key
  base_url := "https://api.diagnyx.io"
  batch_size := 100
  flush_interval_ms := 5000
  max_retries := 3
  debug := false
  capture_full_content := false
  content_max_length := 10000

/-- `DiagnyxError` enum from `error.rs`. The payload of `HttpError` (a
`reqwest::Error`) and of `ViolationError` is modelled as a message string. -/
inductive DiagnyxError where
  | HttpError (message : String)
  | SerializationError (message : String)
  | ApiError (status_code : Nat) (message : String)
  | ConfigError (message : String)
  | MaxRetriesExceeded
  | ViolationError (message : String)
  deriving DecidableEq, Repr

/-! ## Delivery sender (`DiagnyxClient::send_batch_static`) -/

/-- Outcome of one HTTP POST attempt: either a transport-level failure
(`reqwest` returns `Err`) or a response with a status code and a text body. -/
inductive AttemptOutcome where
  | transportErr (message : String)
  | response (status : Nat) (body : String)
  deriving DecidableEq, Repr

/-- `http::StatusCode::is_success`: 2xx. -/
def isSuccessStatus (s : Nat) : Bool := 200 ≤ s && s < 300

/-- `http::StatusCode::is_client_error`: 4xx. -/
def isClientErrorStatus (s : Nat) : Bool := 400 ≤ s && s < 500

/-- An attempt outcome on which the retry loop keeps going: a transport
failure, or a response that is neither 2xx nor 4xx. -/
def retryableFailure : AttemptOutcome → Bool
  | .transportErr _ => true
  | .response s _ => !isSuccessStatus s && !isClientErrorStatus s

/-- The error the loop body stores in `last_error` for a failed attempt
(`None` when the attempt succeeded). -/
def captured : AttemptOutcome → Option DiagnyxError
  | .transportErr m => some (.HttpError m)
  | .response s body =>
      if isSuccessStatus s then none else some (.ApiError s body)

/-- Result of a full `send_batch_static` run: the returned `Result`, the
number of HTTP calls issued, and the list of back-off sleeps (in seconds)
performed between attempts, in order. -/
structure SendTrace where
  result : Except DiagnyxError Unit
  numCalls : Nat
  delays : List Nat

/-- The `for attempt in 0..max_retries` loop of `send_batch_static`.
`rem` is the number of loop iterations still available, `attempt` the
0-based index of the next attempt, `lastErr` the current `last_error`.
Mirrors the source: on 2xx return `Ok` at once; on 4xx store the
`ApiError` and `break` (skipping the sleep); on any other failure store
the error, sleep `2^attempt` seconds unless this was the final iteration,
and continue; when iterations run out return
`Err(last_error.unwrap_or(MaxRetriesExceeded))`. -/
def sendLoopAux (responses : Nat → AttemptOutcome) :
    Nat → Nat → Option DiagnyxError → SendTrace
  | 0, _, lastErr => ⟨.error (lastErr.getD .MaxRetriesExceeded), 0, []⟩
  | rem + 1, attempt, _ =>
    match responses attempt with
    | .response s body =>
      if isSuccessStatus s then ⟨.ok (), 1, []⟩
      else if isClientErrorStatus s then ⟨.error (.ApiError s body), 1, []⟩
      else
        let rest := sendLoopAux responses rem (attempt + 1) (some (.ApiError s body))
        ⟨rest.result, rest.numCalls + 1,
          (if 0 < rem then [2 ^ attempt] else []) ++ rest.delays⟩
    | .transportErr m =>
      let rest := sendLoopAux responses rem (attempt + 1) (some (.HttpError m))
      ⟨rest.result, rest.numCalls + 1,
        (if 0 < rem then [2 ^ attempt] else []) ++ rest.delays⟩

/-- `DiagnyxClient::send_batch_static` for a given attempt-outcome oracle. -/
def send_batch_static (responses : Nat → AttemptOutcome) (cfg : DiagnyxConfig) :
    SendTrace :=
  sendLoopAux responses cfg.max_retries 0 none

/-! ## Flush orchestration (`DiagnyxClient::flush`) -/

/-- Observable outcome of one `flush()` call: the buffer contents after the
call, the number of delivery (`send_batch`) invocations, and the returned
`Result`. -/
structure FlushOutcome where
  buffer : List LLMCall
  sends : Nat
  result : Except DiagnyxError Unit

/-- `DiagnyxClient::flush`. `send` abstracts `send_batch` (one delivery
attempt on a whole batch); `concurrent` is the list of records that other
producers append to the (swapped-out, now empty) buffer while the delivery
attempt is awaited. Mirrors the source: under the lock, if the buffer is
empty return `Ok` at once (zero network calls); otherwise `mem::take` the
buffer and send it; on success return `Ok`; on failure put the failed batch
back IN FRONT of whatever is in the buffer now and return the error. -/
def flush (send : List LLMCall → Except DiagnyxError Unit)
    (concurrent : List LLMCall) (buffer : List LLMCall) : FlushOutcome :=
  if buffer.isEmpty then
    ⟨buffer, 0, .ok ()⟩
  else
    match send buffer with
    | .ok () => ⟨concurrent, 1, .ok ()⟩
    | .error e => ⟨buffer ++ concurrent, 1, .error e⟩

/-! ## Producers (`DiagnyxClient::track`, `DiagnyxClient::track_all`) -/

/-- `DateTime::<Utc>::default()` in the timestamp model. -/
def defaultTimestamp : Int := 0

/-- The timestamp defaulting done at the top of `track`/`track_all`. -/
def stampNow (now : Int) (c : LLMCall) : LLMCall :=
  if c.timestamp = defaultTimestamp then { c with timestamp := now } else c

/-- Observable trace of one `track`/`track_all` call: the buffer after the
call, the result of the inline flush if one was triggered (the source
discards this value with `let _ = self.flush().await`), and the number of
delivery invocations performed before the call returned. -/
structure TrackTrace where
  buffer : List LLMCall
  inlineFlush : Option (Except DiagnyxError Unit)
  sends : Nat

/-- `DiagnyxClient::track`. Returns the trace together with the value the
producer actually receives, which is `()` — the Rust signature is
`pub async fn track(&self, call: LLMCall)` with no return value, and the
inline flush result is discarded by `let _ =`. -/
def track (cfg : DiagnyxConfig) (send : List LLMCall → Except DiagnyxError Unit)
    (now : Int) (buffer : List LLMCall) (call : LLMCall) : TrackTrace × Unit :=
  let call := stampNow now call
  let buffer := buffer ++ [call]
  if cfg.batch_size ≤ buffer.length then
    let o := flush send [] buffer
    (⟨o.buffer, some o.result, o.sends⟩, ())
  else
    (⟨buffer, none, 0⟩, ())

/-- `DiagnyxClient::track_all`: same as `track` for a list of calls appended
with `extend` under one lock acquisition. -/
def track_all (cfg : DiagnyxConfig) (send : List LLMCall → Except DiagnyxError Unit)
    (now : Int) (buffer : List LLMCall) (calls : List LLMCall) : TrackTrace × Unit :=
  let calls := calls.map (stampNow now)
  let buffer := buffer ++ calls
  if cfg.batch_size ≤ buffer.length then
    let o := flush send [] buffer
    (⟨o.buffer, some o.result, o.sends⟩, ())
  else
    (⟨buffer, none, 0⟩, ())

/-- A sequence of `track` calls, threading the buffer; returns the final
buffer and the total number of delivery invocations. -/
def trackSeq (cfg : DiagnyxConfig) (send : List LLMCall → Except DiagnyxError Unit)
    (now : Int) (buffer : List LLMCall) : List LLMCall → List LLMCall × Nat
  | [] => (buffer, 0)
  | c :: cs =>
    let t := (track cfg send now buffer c).1
    let rest := trackSeq cfg send now t.buffer cs
    (rest.1, t.sends + rest.2)

/-! ## Lifecycle (`DiagnyxClient::shutdown`) and the background scheduler -/

/-- Observable outcome of `shutdown()`: the shutdown flag after the call,
the buffer after the call, the number of `flush()` invocations it performed,
the number of delivery invocations, and the returned `Result`. -/
structure ShutdownOutcome where
  flag : Bool
  buffer : List LLMCall
  flushCalls : Nat
  sends : Nat
  result : Except DiagnyxError Unit

/-- `DiagnyxClient::shutdown`: set the shared shutdown flag, then perform
one synchronous `flush()` and return its `Result`. -/
def shutdown (send : List LLMCall → Except DiagnyxError Unit)
    (buffer : List LLMCall) : ShutdownOutcome :=
  let o := flush send [] buffer
  ⟨true, o.buffer, 1, o.sends, o.result⟩

/-- Shared state seen by the background flush task: the buffer and the
shutdown flag. -/
structure SchedState where
  buffer : List LLMCall
  shutdownFlag : Bool

/-- The drain-and-send part of one scheduler iteration (after the shutdown
check of `start_flush_task`): skip an empty buffer; otherwise `mem::take`
and send, restoring the batch in front on failure. Errors are swallowed
(at most logged when debug is set). Returns the new state and the number of
delivery invocations. -/
def schedulerTickBody (send : List LLMCall → Except DiagnyxError Unit)
    (s : SchedState) : SchedState × Nat :=
  if s.buffer.isEmpty then (s, 0)
  else
    match send s.buffer with
    | .ok () => ({ s with buffer := [] }, 1)
    | .error _ => (s, 1)

/-- Result of running the scheduler loop for a bounded number of ticks. -/
structure SchedulerRun where
  state : SchedState
  sends : Nat
  ticksUsed : Nat
  exited : Bool

/-- The scheduler loop of `start_flush_task`, run for at most `n` ticks:
each iteration waits for a tick, then checks the shutdown flag once and
breaks if it is set; otherwise it performs the drain-and-send body. -/
def schedulerRun (send : List LLMCall → Except DiagnyxError Unit) :
    Nat → SchedState → SchedulerRun
  | 0, s => ⟨s, 0, 0, false⟩
  | n + 1, s =>
    if s.shutdownFlag then ⟨s, 0, 1, true⟩
    else
      let step := schedulerTickBody send s
      let rest := schedulerRun send n step.1
      ⟨rest.state, step.2 + rest.sends, rest.ticksUsed + 1, rest.exited⟩

/-! ## Record construction (`LLMCallBuilder`, `types.rs`) -/

/-- `LLMCallBuilder` struct from `types.rs` (`#[derive(Default)]`): every
field a producer may set before `build()`. -/
structure LLMCallBuilder where
  provider : Option Provider := none
  model : Option String := none
  endpoint : Option String := none
  input_tokens : Int := 0
  output_tokens : Int := 0
  latency_ms : Int := 0
  ttft_ms : Option Int := none
  status : CallStatus := .success
  error_code : Option String := none
  error_message : Option String := none
  project_id : Option String := none
  environment : Option String := none
  user_identifier : Option String := none
  trace_id : Option String := none
  span_id : Option String := none
  metadata : Option (List (String × Json)) := none
  full_prompt : Option String := none
  full_response : Option String := none

/-- `LLMCall::builder()`: the all-defaults builder. -/
def LLMCall.builder : LLMCallBuilder := {}

/-- `LLMCallBuilder::provider`. -/
def LLMCallBuilder.withProvider (b : LLMCallBuilder) (p : Provider) :
    LLMCallBuilder := { b with provider := some p }

/-- `LLMCallBuilder::model`. -/
def LLMCallBuilder.withModel (b : LLMCallBuilder) (m : String) :
    LLMCallBuilder := { b with model := some m }

/-- `LLMCallBuilder::full_prompt`. -/
def LLMCallBuilder.withFullPrompt (b : LLMCallBuilder) (p : String) :
    LLMCallBuilder := { b with full_prompt := some p }

/-- `LLMCallBuilder::full_response`. -/
def LLMCallBuilder.withFullResponse (b : LLMCallBuilder) (r : String) :
    LLMCallBuilder := { b with full_response := some r }

/-- `LLMCallBuilder::build`, with `now` the construction-time clock reading.
The source unwraps `provider` and `model` with
`.expect("provider is required")` / `.expect("model is required")` — a panic
when unset, modelled as `none` — and stamps `timestamp: Utc::now()`. -/
def LLMCallBuilder.build (b : LLMCallBuilder) (now : Int) : Option LLMCall :=
  match b.provider, b.model with
  | some p, some m =>
      some
        { provider := p
          model := m
          endpoint := b.endpoint
          input_tokens := b.input_tokens
          output_tokens := b.output_tokens
          latency_ms := b.latency_ms
          ttft_ms := b.ttft_ms
          status := b.status
          error_code := b.error_code
          error_message := b.error_message
          project_id := b.project_id
          environment := b.environment
          user_identifier := b.user_identifier
          trace_id := b.trace_id
          span_id := b.span_id
          metadata := b.metadata
          timestamp := now
          full_prompt := b.full_prompt
          full_response := b.full_response }
  | _, _ => none

/-! ## Wire protocol: serde serialization model (`types.rs`, `client.rs`) -/

/-- serde rendering of `Provider` (`rename_all = "lowercase"`). -/
def Provider.toJson : Provider → Json
  | .openAI => .str "openai"
  | .anthropic => .str "anthropic"
  | .google => .str "google"
  | .azure => .str "azure"
  | .aws => .str "aws"
  | .custom => .str "custom"

/-- serde rendering of `CallStatus` (`rename_all = "snake_case"`). -/
def CallStatus.toJson : CallStatus → Json
  | .success => .str "success"
  | .error => .str "error"
  | .timeout => .str "timeout"
  | .rateLimited => .str "rate_limited"

/-- A field guarded by `#[serde(skip_serializing_if = "Option::is_none")]`:
emitted only when set, never as `null`. -/
def optField (name : String) : Option Json → List (String × Json)
  | none => []
  | some j => [(name, j)]

/-- The serde field list of one `LLMCall`, in declaration order. Required
fields always appear; every `Option` field carries
`skip_serializing_if = "Option::is_none"`. The `timestamp` is rendered as
the abstract datetime value. -/
def LLMCall.serializeFields (c : LLMCall) : List (String × Json) :=
  [("provider", c.provider.toJson), ("model", .str c.model)]
  ++ optField "endpoint" (c.endpoint.map .str)
  ++ [("input_tokens", .num c.input_tokens),
      ("output_tokens", .num c.output_tokens),
      ("latency_ms", .num c.latency_ms)]
  ++ optField "ttft_ms" (c.ttft_ms.map .num)
  ++ [("status", c.status.toJson)]
  ++ optField "error_code" (c.error_code.map .str)
  ++ optField "error_message" (c.error_message.map .str)
  ++ optField "project_id" (c.project_id.map .str)
  ++ optField "environment" (c.environment.map .str)
  ++ optField "user_identifier" (c.user_identifier.map .str)
  ++ optField "trace_id" (c.trace_id.map .str)
  ++ optField "span_id" (c.span_id.map .str)
  ++ optField "metadata" (c.metadata.map .obj)
  ++ [("timestamp", .num c.timestamp)]
  ++ optField "full_prompt" (c.full_prompt.map .str)
  ++ optField "full_response" (c.full_response.map .str)

/-- serde rendering of one `LLMCall`. -/
def LLMCall.serialize (c : LLMCall) : Json := .obj c.serializeFields

/-- `BatchRequest { calls }` rendered to JSON: the object
`{"calls": [Record, ...]}`. -/
def BatchRequest.serialize (calls : List LLMCall) : Json :=
  .obj [("calls", .arr (calls.map LLMCall.serialize))]

/-- An HTTP request as assembled by the sender. -/
structure HttpRequest where
  method : String
  url : String
  headers : List (String × String)
  body : Json

/-- The POST request built by each iteration of `send_batch_static`
(lines 179–184 of `client.rs`): method, URL, the two headers, and the JSON
body. -/
def buildRequest (cfg : DiagnyxConfig) (calls : List LLMCall) : HttpRequest where
  method := "POST"
  url := cfg.base_url ++ "/api/v1/ingest/llm/batch"
  headers :=
    [("Content-Type", "application/json"),
     ("Authorization", "Bearer " ++ cfg.api_key)]
  body := BatchRequest.serialize calls

/-- Whether a JSON key is snake_case: lowercase ASCII letters, digits and
underscores only. -/
def isSnakeCase (s : String) : Bool :=
  s.toList.all fun ch => ch.isLower || ch.isDigit || ch = '_'

/-- Whether a given key appears in the serialized object of a record. -/
def keyPresent (c : LLMCall) (k : String) : Prop :=
  k ∈ c.serializeFields.map Prod.fst

/-! ## Content capture and truncation (`track_call_with_content`) -/

/-- UTF-8 encoded length in bytes of one character (Rust `char::len_utf8`). -/
def utf8CharLen (c : Char) : Nat :=
  if c.toNat < 0x80 then 1
  else if c.toNat < 0x800 then 2
  else if c.toNat < 0x10000 then 3
  else 4

/-- Rust `String::len`: the UTF-8 byte length. Rust strings are modelled as
`List Char` so byte-index slicing can be expressed. -/
def rustLen (s : List Char) : Nat := (s.map utf8CharLen).sum

/-- Rust byte slicing `&s[..n]`: returns the characters making up the first
`n` bytes, or `none` (a panic) when `n` is not a character boundary or
exceeds the length. -/
def sliceTo : List Char → Nat → Option (List Char)
  | _, 0 => some []
  | [], _ + 1 => none
  | c :: cs, n + 1 =>
    if utf8CharLen c ≤ n + 1 then
      (sliceTo cs (n + 1 - utf8CharLen c)).map (c :: ·)
    else none

/-- A string is all-ASCII when every character is below `0x80`. -/
def allAscii (s : List Char) : Bool := s.all fun c => c.toNat < 0x80

/-- The truncation applied by `track_call_with_content` to the prompt and
the response: when the byte length exceeds `maxLen`, slice at byte `maxLen`
(a panic — `none` — when that index is inside a multi-byte character) and
append `"... [truncated]"`. -/
def truncateContent (maxLen : Nat) (s : List Char) : Option (List Char) :=
  if maxLen < rustLen s then
    (sliceTo s maxLen).map (· ++ "... [truncated]".toList)
  else some s

/-- The effective maximum content length of `track_call_with_content`:
`content_max_length`, or `10000` when `content_max_length` is `0`. -/
def effectiveMaxLen (cfg : DiagnyxConfig) : Nat :=
  if 0 < cfg.content_max_length then cfg.content_max_length else 10000

/-- The record built by `track_call_with_content` (lines 276–324 of
`client.rs`) before it is handed to `track`: builder with provider, model,
token counts, latency and `Success` status; when `capture_full_content` is
set, the truncated prompt/response are attached. `none` models a panic in
the truncation slicing. The builder's `build` is total here because
provider and model are always set on this path. -/
def track_call_with_content_record (cfg : DiagnyxConfig) (provider : Provider)
    (model : String) (prompt response : List Char)
    (input_tokens output_tokens : Int) (latency_ms : Int) (now : Int) :
    Option LLMCall :=
  let b0 := (LLMCall.builder.withProvider provider).withModel model
  let base : LLMCallBuilder :=
    { b0 with input_tokens := input_tokens, output_tokens := output_tokens,
              latency_ms := latency_ms, status := .success }
  if cfg.capture_full_content then
    match truncateContent (effectiveMaxLen cfg) prompt,
        truncateContent (effectiveMaxLen cfg) response with
    | some p, some r =>
        ((base.withFullPrompt p.asString).withFullResponse r.asString).build now
    | _, _ => none
  else
    base.build now

/-! ## Concrete sample values used to exercise the model -/

/-- A concrete record (as produced by the builder in the repository's own
tests). -/
def sampleCall : LLMCall where
  provider := .openAI
  model := "gpt-4"
  endpoint := none
  input_tokens := 100
  output_tokens := 50
  latency_ms := 0
  ttft_ms := none
  status := .success
  error_code := none
  error_message := none
  project_id := none
  environment := none
  user_identifier := none
  trace_id := none
  span_id := none
  metadata := none
  timestamp := 1
  full_prompt := none
  full_response := none

/-- A second concrete record. -/
def sampleCall2 : LLMCall :=
  { sampleCall with provider := .anthropic, model := "claude-3", timestamp := 2 }

/-- A delivery routine that always fails with a 500 `ApiError`. -/
def sendFail500 : List LLMCall → Except DiagnyxError Unit :=
  fun _ => .error (.ApiError 500 "server error")

/-- A delivery routine that always succeeds. -/
def sendAlwaysOk : List LLMCall → Except DiagnyxError Unit := fun _ => .ok ()

/-- Default config with `batch_size` 1. -/
def cfgBatch1 : DiagnyxConfig := { DiagnyxConfig.new "test-api-key" with batch_size := 1 }

/-- Default config with `batch_size` 2. -/
def cfgBatch2 : DiagnyxConfig := { DiagnyxConfig.new "test-api-key" with batch_size := 2 }

/-- Config with content capture on and a 1-byte content limit. -/
def cfgCapture1 : DiagnyxConfig :=
  { DiagnyxConfig.new "test-api-key" with
      capture_full_content := true, content_max_length := 1 }

/-- A one-character non-ASCII prompt (U+00E9, two UTF-8 bytes). -/
def nonAsciiPrompt : List Char := [Char.ofNat 233]

/-- Attempt oracle: the server answers 500 on every attempt. -/
def respAll500 : Nat → AttemptOutcome := fun _ => .response 500 "server error"

/-- Attempt oracle: the server answers 200 on every attempt. -/
def respAll200 : Nat → AttemptOutcome := fun _ => .response 200 "ok"

/-- Attempt oracle: the server answers 400 on every attempt. -/
def respAll400 : Nat → AttemptOutcome := fun _ => .response 400 "bad request"

/-- Attempt oracle: transport failure on every attempt. -/
def respAllTransport : Nat → AttemptOutcome := fun _ => .transportErr "connection refused"

/-! # Theorems -/

/-- **C2.** `flush()` = drain → (empty ⇒ `Ok`, zero network calls) →
else send the whole drained batch → on success `Ok` → on delivery failure,
reinsert the entire failed batch at the front of the current buffer (ahead
of records appended concurrently during the attempt) and return the
delivery error; the post-call buffer length is then the failed batch size
plus the concurrently appended record count. -/
theorem flush_drain_send_restore
    (send : List LLMCall → Except DiagnyxError Unit)
    (concurrent buffer : List LLMCall) :
    (buffer = [] →
      flush send concurrent buffer = ⟨[], 0, .ok ()⟩) ∧
    (buffer ≠ [] →
      (flush send concurrent buffer).sends = 1 ∧
      (send buffer = .ok () →
        flush send concurrent buffer = ⟨concurrent, 1, .ok ()⟩) ∧
      (∀ e, send buffer = .error e →
        (flush send concurrent buffer).result = .error e ∧
        (flush send concurrent buffer).buffer = buffer ++ concurrent ∧
        (flush send concurrent buffer).buffer.length
          = buffer.length + concurrent.length)) := by
  constructor
  · rintro rfl
    simp [flush]
  · intro hne
    have hbe : buffer.isEmpty = false := by
      simpa [List.isEmpty_iff] using hne
    refine ⟨?_, ?_, ?_⟩
    · unfold flush
      rw [hbe]
      cases hs : send buffer with
      | ok u => cases u; simp
      | error e => simp
    · intro hok
      unfold flush
      rw [hbe, hok]
      simp
    · intro e herr
      unfold flush
      rw [hbe, herr]
      simp

/-- Witness for C2 at a concrete failing delivery: batch `[sampleCall]`,
one concurrently appended record, a 500 failure. -/
theorem flush_drain_send_restore_witness :
    (flush sendFail500 [sampleCall2] [sampleCall]).result
        = .error (.ApiError 500 "server error") ∧
    (flush sendFail500 [sampleCall2] [sampleCall]).buffer
        = [sampleCall, sampleCall2] ∧
    (flush sendFail500 [sampleCall2] [sampleCall]).buffer.length = 2 := by
  have h :=
    ((flush_drain_send_restore sendFail500 [sampleCall2] [sampleCall]).2
        (by simp)).2.2 (.ApiError 500 "server error") rfl
  exact ⟨h.1, by simpa using h.2.1, by simpa using h.2.2⟩

/-- **C4.** When the server answers a 4xx on the first attempt, the sender
makes exactly one HTTP call, performs no back-off sleep, and fails
immediately with the `ApiError` carrying that status and the response body,
whatever `max_retries` is configured (as long as at least one attempt is
allowed). -/
theorem send_batch_client_error_no_retry
    (responses : Nat → AttemptOutcome) (cfg : DiagnyxConfig)
    (s : Nat) (body : String)
    (h1 : 0 < cfg.max_retries)
    (h2 : responses 0 = .response s body)
    (h3 : isClientErrorStatus s = true) :
    send_batch_static responses cfg = ⟨.error (.ApiError s body), 1, []⟩ := by
  have hns : isSuccessStatus s = false := by
    simp only [isClientErrorStatus, Bool.and_eq_true, decide_eq_true_eq] at h3
    simp only [isSuccessStatus, Bool.and_eq_false_iff, decide_eq_false_iff_not]
    omega
  obtain ⟨r, hr⟩ : ∃ r, cfg.max_retries = r + 1 :=
    ⟨cfg.max_retries - 1, by omega⟩
  unfold send_batch_static
  rw [hr]
  unfold sendLoopAux
  rw [h2]
  simp [hns, h3]

/-- Witness for C4: persistent 400 with `max_retries = 3` (the repository's
own `test_no_retry_on_client_error` scenario) yields one call and the
`ApiError`. -/
theorem send_batch_client_error_no_retry_witness :
    send_batch_static respAll400 (DiagnyxConfig.new "test-api-key")
      = ⟨.error (.ApiError 400 "bad request"), 1, []⟩ :=
  send_batch_client_error_no_retry respAll400 (DiagnyxConfig.new "test-api-key")
    400 "bad request" (by decide) rfl (by decide)

/-- **C6.** `shutdown()` sets the shutdown flag, performs exactly one
additional synchronous `flush()` and returns that flush's `Result`; once
the flag is set, the background scheduler loop observes it at its next tick
check — within one tick — and exits, performing no further delivery calls
and leaving the state untouched. -/
theorem shutdown_single_flush_scheduler_exit
    (send : List LLMCall → Except DiagnyxError Unit)
    (buffer b : List LLMCall) (n : Nat) (hn : 0 < n) :
    (shutdown send buffer).flag = true ∧
    (shutdown send buffer).flushCalls = 1 ∧
    (shutdown send buffer).result = (flush send [] buffer).result ∧
    (shutdown send buffer).buffer = (flush send [] buffer).buffer ∧
    (schedulerRun send n ⟨b, true⟩).sends = 0 ∧
    (schedulerRun send n ⟨b, true⟩).ticksUsed = 1 ∧
    (schedulerRun send n ⟨b, true⟩).exited = true ∧
    (schedulerRun send n ⟨b, true⟩).state = ⟨b, true⟩ := by
  obtain ⟨m, rfl⟩ : ∃ m, n = m + 1 := ⟨n - 1, by omega⟩
  refine ⟨rfl, rfl, rfl, rfl, ?_, ?_, ?_, ?_⟩ <;> simp [schedulerRun]

/-- Witness for C6 at a concrete state: non-empty buffer, failing delivery,
three pending ticks. -/
theorem shutdown_single_flush_scheduler_exit_witness :
    (shutdown sendFail500 [sampleCall]).flag = true ∧
    (shutdown sendFail500 [sampleCall]).result
      = .error (.ApiError 500 "server error") ∧
    (schedulerRun sendFail500 3 ⟨[sampleCall], true⟩).sends = 0 := by
  have h := shutdown_single_flush_scheduler_exit sendFail500
    [sampleCall] [sampleCall] 3 (by decide)
  exact ⟨h.1, by rw [h.2.2.1]; rfl, h.2.2.2.2.1⟩

/-- **C1, counterexample.** The claim says the inline-trigger flush
surfaces the delivery error to the producer whose `track` call triggered
it. It does not: `track` is declared `pub async fn track(&self, call)`
with no return value and discards the flush result with
`let _ = self.flush().await`. Concretely, with `batch_size = 1` and a
delivery that fails with a 500 `ApiError`, the triggered inline flush
fails — the trace records the discarded error and the restored buffer —
yet the value `track` returns to the producer is `()`, identical to what
it returns when delivery succeeds: the failure is not reported. -/
theorem track_discards_inline_flush_error :
    (track cfgBatch1 sendFail500 1 [] sampleCall).1.inlineFlush
        = some (.error (.ApiError 500 "server error")) ∧
    (track cfgBatch1 sendFail500 1 [] sampleCall).1.buffer = [sampleCall] ∧
    (track cfgBatch1 sendFail500 1 [] sampleCall).2
        = (track cfgBatch1 sendAlwaysOk 1 [] sampleCall).2 ∧
    (flush sendFail500 [] [sampleCall]).result
        = .error (.ApiError 500 "server error") ∧
    (shutdown sendFail500 [sampleCall]).result
        = .error (.ApiError 500 "server error") :=
  ⟨rfl, rfl, rfl, rfl, rfl⟩

/-- **C1, amended.** The inline-trigger flush is awaited synchronously
before `track`/`track_all` return — its buffer effects and its `Result`
are fixed by the time the producer's call returns — but that `Result` is
discarded (`let _ =`) and the producer receives `()` unconditionally;
only explicit `flush()` and `shutdown()` calls surface the delivery error
to their caller. -/
theorem track_inline_flush_awaited_not_surfaced
    (cfg : DiagnyxConfig) (send : List LLMCall → Except DiagnyxError Unit)
    (now : Int) (buffer : List LLMCall) (call : LLMCall)
    (calls : List LLMCall)
    (h : cfg.batch_size ≤ (buffer ++ [stampNow now call]).length)
    (h2 : cfg.batch_size ≤ (buffer ++ calls.map (stampNow now)).length) :
    (track cfg send now buffer call).1.buffer
        = (flush send [] (buffer ++ [stampNow now call])).buffer ∧
    (track cfg send now buffer call).1.inlineFlush
        = some (flush send [] (buffer ++ [stampNow now call])).result ∧
    (track cfg send now buffer call).2 = () ∧
    (track_all cfg send now buffer calls).1.inlineFlush
        = some (flush send [] (buffer ++ calls.map (stampNow now))).result ∧
    (track_all cfg send now buffer calls).2 = () ∧
    (shutdown send buffer).result = (flush send [] buffer).result := by
  have h' : cfg.batch_size ≤ buffer.length + 1 := by simpa using h
  have h2' : cfg.batch_size ≤ buffer.length + calls.length := by simpa using h2
  refine ⟨?_, ?_, rfl, ?_, rfl, rfl⟩ <;>
    simp [track, track_all, h', h2']

/-- Witness for the amended C1: `batch_size = 1`, failing delivery. -/
theorem track_inline_flush_awaited_not_surfaced_witness :
    (track cfgBatch1 sendFail500 1 [] sampleCall2).1.inlineFlush
        = some (flush sendFail500 [] [stampNow 1 sampleCall2]).result ∧
    (track cfgBatch1 sendFail500 1 [] sampleCall2).2 = () := by
  have h := track_inline_flush_awaited_not_surfaced cfgBatch1 sendFail500 1 []
    sampleCall2 [sampleCall2] (by decide) (by decide)
  exact ⟨by simpa using h.2.1, h.2.2.1⟩

/-- Accumulation lemma for C5: as long as the post-append length stays
below `batch_size`, a sequence of `track` calls only appends the
(timestamp-stamped) records, in order, and performs no delivery call. -/
theorem trackSeq_below_threshold
    (cfg : DiagnyxConfig) (send : List LLMCall → Except DiagnyxError Unit)
    (now : Int) :
    ∀ (cs : List LLMCall) (buffer : List LLMCall),
      buffer.length + cs.length < cfg.batch_size →
      trackSeq cfg send now buffer cs = (buffer ++ cs.map (stampNow now), 0) := by
  intro cs
  induction cs with
  | nil => intro buffer _; simp [trackSeq]
  | cons c cs ih =>
    intro buffer hlt
    simp only [List.length_cons] at hlt
    have hnotrig : ¬ cfg.batch_size ≤ buffer.length + 1 := by omega
    have ht : track cfg send now buffer c
        = (⟨buffer ++ [stampNow now c], none, 0⟩, ()) := by
      simp [track, hnotrig]
    have hrec := ih (buffer ++ [stampNow now c]) (by simp; omega)
    simp only [trackSeq, ht, hrec]
    simp

/-- **C5.** With fewer than `batch_size` appends and no explicit flush the
buffer holds exactly the appended records (length `N`, no delivery call);
the append that brings the length to exactly `batch_size` triggers a flush
synchronously before `track` returns, and when delivery succeeds the
buffer is empty immediately afterwards. -/
theorem track_threshold_trigger
    (cfg : DiagnyxConfig) (send : List LLMCall → Except DiagnyxError Unit)
    (now : Int) :
    (∀ calls : List LLMCall, calls.length < cfg.batch_size →
      (trackSeq cfg send now [] calls).1.length = calls.length ∧
      (trackSeq cfg send now [] calls).2 = 0) ∧
    (∀ (buffer : List LLMCall) (call : LLMCall),
      buffer.length + 1 = cfg.batch_size →
      send (buffer ++ [stampNow now call]) = .ok () →
      (track cfg send now buffer call).1.inlineFlush = some (.ok ()) ∧
      (track cfg send now buffer call).1.sends = 1 ∧
      (track cfg send now buffer call).1.buffer = []) := by
  constructor
  · intro calls hlt
    have h := trackSeq_below_threshold cfg send now calls []
      (by simpa using hlt)
    rw [h]
    simp
  · intro buffer call hlen hok
    have htrig : cfg.batch_size ≤ buffer.length + 1 := by omega
    have hne : (buffer ++ [stampNow now call]).isEmpty = false := by
      simp
    have hfl : flush send [] (buffer ++ [stampNow now call])
        = ⟨[], 1, .ok ()⟩ := by
      unfold flush
      rw [hne, hok]
      simp
    simp [track, htrig, hfl]

/-- Witness for C5: `batch_size = 2`, one append keeps the buffer at
length 1 with no delivery; the second append triggers a successful inline
flush and empties the buffer. -/
theorem track_threshold_trigger_witness :
    (trackSeq cfgBatch2 sendAlwaysOk 1 [] [sampleCall]).1.length = 1 ∧
    (trackSeq cfgBatch2 sendAlwaysOk 1 [] [sampleCall]).2 = 0 ∧
    (track cfgBatch2 sendAlwaysOk 1 [sampleCall] sampleCall2).1.buffer = [] ∧
    (track cfgBatch2 sendAlwaysOk 1 [sampleCall] sampleCall2).1.sends = 1 := by
  have h := track_threshold_trigger cfgBatch2 sendAlwaysOk 1
  have h1 := h.1 [sampleCall] (by decide)
  have h2 := h.2 [sampleCall] sampleCall2 (by decide) rfl
  exact ⟨h1.1, h1.2, h2.2.2, h2.2.1⟩

/-- The retry loop never issues more HTTP calls than it has iterations. -/
theorem sendLoopAux_numCalls_le (responses : Nat → AttemptOutcome) :
    ∀ (rem attempt : Nat) (lastErr : Option DiagnyxError),
      (sendLoopAux responses rem attempt lastErr).numCalls ≤ rem := by
  intro rem
  induction rem with
  | zero => intro attempt lastErr; simp [sendLoopAux]
  | succ r ih =>
    intro attempt lastErr
    unfold sendLoopAux
    cases responses attempt with
    | transportErr m =>
      have h := ih (attempt + 1) (some (.HttpError m))
      show (sendLoopAux responses r (attempt + 1)
        (some (.HttpError m))).numCalls + 1 ≤ r + 1
      omega
    | response s body =>
      by_cases hs : isSuccessStatus s = true
      · simp [hs]
      · by_cases hc : isClientErrorStatus s = true
        · simp [hs, hc]
        · have h := ih (attempt + 1) (some (.ApiError s body))
          simp only [hs, hc, if_false]
          show (sendLoopAux responses r (attempt + 1)
            (some (.ApiError s body))).numCalls + 1 ≤ r + 1
          omega

/-- Splitting off the head of a uniform back-off delay list. -/
theorem delaysShift (a r : Nat) :
    (List.range (r + 1)).map (fun i => 2 ^ (a + i))
      = 2 ^ a :: (List.range r).map (fun i => 2 ^ (a + 1 + i)) := by
  rw [List.range_succ_eq_map, List.map_cons, List.map_map, Nat.add_zero]
  refine congrArg _ (List.map_congr_left fun i _ => ?_)
  simp only [Function.comp_apply]
  congr 1
  omega

/-- One-step unfolding of the retry loop: transport failure. -/
theorem sendLoopAux_succ_transport (responses : Nat → AttemptOutcome)
    (r attempt : Nat) (lastErr : Option DiagnyxError) (m : String)
    (hra : responses attempt = .transportErr m) :
    sendLoopAux responses (r + 1) attempt lastErr
      = ⟨(sendLoopAux responses r (attempt + 1) (some (.HttpError m))).result,
         (sendLoopAux responses r (attempt + 1) (some (.HttpError m))).numCalls + 1,
         (if 0 < r then [2 ^ attempt] else [])
           ++ (sendLoopAux responses r (attempt + 1) (some (.HttpError m))).delays⟩ := by
  conv_lhs => simp only [sendLoopAux]
  rw [hra]

/-- One-step unfolding of the retry loop: 2xx response. -/
theorem sendLoopAux_succ_success (responses : Nat → AttemptOutcome)
    (r attempt : Nat) (lastErr : Option DiagnyxError) (s : Nat) (body : String)
    (hra : responses attempt = .response s body)
    (hs : isSuccessStatus s = true) :
    sendLoopAux responses (r + 1) attempt lastErr = ⟨.ok (), 1, []⟩ := by
  conv_lhs => simp only [sendLoopAux]
  rw [hra]
  simp [hs]

/-- One-step unfolding of the retry loop: 4xx response (the `break`). -/
theorem sendLoopAux_succ_clientError (responses : Nat → AttemptOutcome)
    (r attempt : Nat) (lastErr : Option DiagnyxError) (s : Nat) (body : String)
    (hra : responses attempt = .response s body)
    (hs : isSuccessStatus s = false) (hc : isClientErrorStatus s = true) :
    sendLoopAux responses (r + 1) attempt lastErr
      = ⟨.error (.ApiError s body), 1, []⟩ := by
  conv_lhs => simp only [sendLoopAux]
  rw [hra]
  simp [hs, hc]

/-- One-step unfolding of the retry loop: retryable non-2xx, non-4xx
response. -/
theorem sendLoopAux_succ_retryResponse (responses : Nat → AttemptOutcome)
    (r attempt : Nat) (lastErr : Option DiagnyxError) (s : Nat) (body : String)
    (hra : responses attempt = .response s body)
    (hs : isSuccessStatus s = false) (hc : isClientErrorStatus s = false) :
    sendLoopAux responses (r + 1) attempt lastErr
      = ⟨(sendLoopAux responses r (attempt + 1) (some (.ApiError s body))).result,
         (sendLoopAux responses r (attempt + 1) (some (.ApiError s body))).numCalls + 1,
         (if 0 < r then [2 ^ attempt] else [])
           ++ (sendLoopAux responses r (attempt + 1) (some (.ApiError s body))).delays⟩ := by
  conv_lhs => simp only [sendLoopAux]
  rw [hra]
  simp [hs, hc]

/-- When every attempt in range fails retryably, the loop uses every
iteration and sleeps `2^i` seconds after attempt `i` for every
non-final attempt. -/
theorem sendLoopAux_all_retryable (responses : Nat → AttemptOutcome) :
    ∀ (rem attempt : Nat) (lastErr : Option DiagnyxError),
      (∀ i, attempt ≤ i → i < attempt + rem →
        retryableFailure (responses i) = true) →
      (sendLoopAux responses rem attempt lastErr).numCalls = rem ∧
      (sendLoopAux responses rem attempt lastErr).delays
        = (List.range (rem - 1)).map (fun i => 2 ^ (attempt + i)) := by
  intro rem
  induction rem with
  | zero => intro attempt lastErr _; simp [sendLoopAux]
  | succ r ih =>
    intro attempt lastErr hfail
    have h0 := hfail attempt le_rfl (by omega)
    cases hra : responses attempt with
    | transportErr m =>
      have hrec := ih (attempt + 1) (some (.HttpError m))
        (fun i h1 h2 => hfail i (by omega) (by omega))
      rw [sendLoopAux_succ_transport responses r attempt lastErr m hra]
      refine ⟨?_, ?_⟩
      · show (sendLoopAux responses r (attempt + 1)
          (some (.HttpError m))).numCalls + 1 = r + 1
        have hh := hrec.1
        omega
      · show (if 0 < r then [2 ^ attempt] else [])
            ++ (sendLoopAux responses r (attempt + 1) (some (.HttpError m))).delays
            = (List.range (r + 1 - 1)).map (fun i => 2 ^ (attempt + i))
        rw [hrec.2]
        cases r with
        | zero => simp
        | succ rr =>
          simp only [Nat.add_sub_cancel]
          rw [delaysShift]
          simp
    | response s body =>
      rw [hra] at h0
      simp only [retryableFailure, Bool.and_eq_true, Bool.not_eq_true'] at h0
      have hrec := ih (attempt + 1) (some (.ApiError s body))
        (fun i h1 h2 => hfail i (by omega) (by omega))
      rw [sendLoopAux_succ_retryResponse responses r attempt lastErr s body hra
        h0.1 h0.2]
      refine ⟨?_, ?_⟩
      · show (sendLoopAux responses r (attempt + 1)
          (some (.ApiError s body))).numCalls + 1 = r + 1
        have hh := hrec.1
        omega
      · show (if 0 < r then [2 ^ attempt] else [])
            ++ (sendLoopAux responses r (attempt + 1) (some (.ApiError s body))).delays
            = (List.range (r + 1 - 1)).map (fun i => 2 ^ (attempt + i))
        rw [hrec.2]
        cases r with
        | zero => simp
        | succ rr =>
          simp only [Nat.add_sub_cancel]
          rw [delaysShift]
          simp

/-- When the first `k` attempts fail retryably and attempt `k` gets a 2xx
response, the loop returns `Ok` after exactly `k + 1` HTTP calls. -/
theorem sendLoopAux_first_success (responses : Nat → AttemptOutcome) :
    ∀ (k rem attempt : Nat) (lastErr : Option DiagnyxError),
      k < rem →
      (∀ i, i < k → retryableFailure (responses (attempt + i)) = true) →
      (∃ s body, responses (attempt + k) = .response s body ∧
        isSuccessStatus s = true) →
      (sendLoopAux responses rem attempt lastErr).result = .ok () ∧
      (sendLoopAux responses rem attempt lastErr).numCalls = k + 1 := by
  intro k
  induction k with
  | zero =>
    intro rem attempt lastErr hk _ hsucc
    obtain ⟨s, body, hr, hs⟩ := hsucc
    rw [Nat.add_zero] at hr
    obtain ⟨r, rfl⟩ : ∃ r, rem = r + 1 := ⟨rem - 1, by omega⟩
    rw [sendLoopAux_succ_success responses r attempt lastErr s body hr hs]
    exact ⟨rfl, rfl⟩
  | succ k ih =>
    intro rem attempt lastErr hk hfail hsucc
    obtain ⟨r, rfl⟩ : ∃ r, rem = r + 1 := ⟨rem - 1, by omega⟩
    have h0 := hfail 0 (by omega)
    rw [Nat.add_zero] at h0
    have hfail2 : ∀ i, i < k →
        retryableFailure (responses (attempt + 1 + i)) = true := by
      intro i hi
      have hh := hfail (i + 1) (by omega)
      rwa [show attempt + (i + 1) = attempt + 1 + i by omega] at hh
    have hsucc2 : ∃ s body, responses (attempt + 1 + k) = .response s body ∧
        isSuccessStatus s = true := by
      obtain ⟨s, body, h1, h2⟩ := hsucc
      exact ⟨s, body, by
        rwa [show attempt + 1 + k = attempt + (k + 1) by omega], h2⟩
    cases hra : responses attempt with
    | transportErr m =>
      have hrec := ih r (attempt + 1) (some (.HttpError m)) (by omega) hfail2 hsucc2
      rw [sendLoopAux_succ_transport responses r attempt lastErr m hra]
      refine ⟨hrec.1, ?_⟩
      show (sendLoopAux responses r (attempt + 1)
        (some (.HttpError m))).numCalls + 1 = k + 1 + 1
      have hh := hrec.2
      omega
    | response s body =>
      rw [hra] at h0
      simp only [retryableFailure, Bool.and_eq_true, Bool.not_eq_true'] at h0
      have hrec := ih r (attempt + 1) (some (.ApiError s body)) (by omega)
        hfail2 hsucc2
      rw [sendLoopAux_succ_retryResponse responses r attempt lastErr s body hra
        h0.1 h0.2]
      refine ⟨hrec.1, ?_⟩
      show (sendLoopAux responses r (attempt + 1)
        (some (.ApiError s body))).numCalls + 1 = k + 1 + 1
      have hh := hrec.2
      omega

/-- When the loop returns an error it is either the generic
`MaxRetriesExceeded` with zero iterations available, or exactly the error
captured on the final HTTP attempt it made. -/
theorem sendLoopAux_error_captured (responses : Nat → AttemptOutcome) :
    ∀ (rem attempt : Nat) (lastErr : Option DiagnyxError) (e : DiagnyxError),
      (sendLoopAux responses rem attempt lastErr).result = .error e →
      (rem = 0 ∧ (sendLoopAux responses rem attempt lastErr).numCalls = 0 ∧
        e = lastErr.getD .MaxRetriesExceeded) ∨
      (0 < (sendLoopAux responses rem attempt lastErr).numCalls ∧
        captured (responses
          (attempt + ((sendLoopAux responses rem attempt lastErr).numCalls - 1)))
          = some e) := by
  intro rem
  induction rem with
  | zero =>
    intro attempt lastErr e he
    left
    refine ⟨rfl, rfl, ?_⟩
    have hres : (sendLoopAux responses 0 attempt lastErr).result
        = .error (lastErr.getD .MaxRetriesExceeded) := rfl
    rw [hres] at he
    injection he with h2
    exact h2.symm
  | succ r ih =>
    intro attempt lastErr e he
    right
    cases hra : responses attempt with
    | transportErr m =>
      rw [sendLoopAux_succ_transport responses r attempt lastErr m hra] at he ⊢
      have heR : (sendLoopAux responses r (attempt + 1)
          (some (.HttpError m))).result = .error e := he
      rcases ih (attempt + 1) (some (.HttpError m)) e heR with
        ⟨hr0, hn0, hE⟩ | ⟨hpos, hcap⟩
      · simp only [Option.getD_some] at hE
        refine ⟨?_, ?_⟩
        · show 0 < (sendLoopAux responses r (attempt + 1)
            (some (.HttpError m))).numCalls + 1
          omega
        show captured (responses (attempt + ((sendLoopAux responses r (attempt + 1)
          (some (.HttpError m))).numCalls + 1 - 1))) = some e
        rw [hn0]
        simp [hra, captured, hE]
      · refine ⟨?_, ?_⟩
        · show 0 < (sendLoopAux responses r (attempt + 1)
            (some (.HttpError m))).numCalls + 1
          omega
        show captured (responses (attempt + ((sendLoopAux responses r (attempt + 1)
          (some (.HttpError m))).numCalls + 1 - 1))) = some e
        rw [show attempt + ((sendLoopAux responses r (attempt + 1)
            (some (.HttpError m))).numCalls + 1 - 1)
          = attempt + 1 + ((sendLoopAux responses r (attempt + 1)
            (some (.HttpError m))).numCalls - 1) by omega]
        exact hcap
    | response s body =>
      by_cases hs : isSuccessStatus s = true
      · rw [sendLoopAux_succ_success responses r attempt lastErr s body hra hs] at he
        simp at he
      · have hs' : isSuccessStatus s = false := by
          simpa using hs
        by_cases hc : isClientErrorStatus s = true
        · rw [sendLoopAux_succ_clientError responses r attempt lastErr s body
            hra hs' hc] at he ⊢
          have he' : DiagnyxError.ApiError s body = e := by
            simpa using he
          refine ⟨?_, ?_⟩
          · show (0 : Nat) < 1
            omega
          show captured (responses (attempt + (1 - 1))) = some e
          simp [hra, captured, hs', he']
        · have hc' : isClientErrorStatus s = false := by
            simpa using hc
          rw [sendLoopAux_succ_retryResponse responses r attempt lastErr s body
            hra hs' hc'] at he ⊢
          have heR : (sendLoopAux responses r (attempt + 1)
              (some (.ApiError s body))).result = .error e := he
          rcases ih (attempt + 1) (some (.ApiError s body)) e heR with
            ⟨hr0, hn0, hE⟩ | ⟨hpos, hcap⟩
          · simp only [Option.getD_some] at hE
            refine ⟨?_, ?_⟩
            · show 0 < (sendLoopAux responses r (attempt + 1)
                (some (.ApiError s body))).numCalls + 1
              omega
            show captured (responses (attempt + ((sendLoopAux responses r (attempt + 1)
              (some (.ApiError s body))).numCalls + 1 - 1))) = some e
            rw [hn0]
            simp [hra, captured, hs', hE]
          · refine ⟨?_, ?_⟩
            · show 0 < (sendLoopAux responses r (attempt + 1)
                (some (.ApiError s body))).numCalls + 1
              omega
            show captured (responses (attempt + ((sendLoopAux responses r (attempt + 1)
              (some (.ApiError s body))).numCalls + 1 - 1))) = some e
            rw [show attempt + ((sendLoopAux responses r (attempt + 1)
                (some (.ApiError s body))).numCalls + 1 - 1)
              = attempt + 1 + ((sendLoopAux responses r (attempt + 1)
                (some (.ApiError s body))).numCalls - 1) by omega]
            exact hcap

/-- `captured` only ever produces a transport `HttpError` or an `ApiError`,
never the generic `MaxRetriesExceeded`. -/
theorem captured_ne_maxRetries (o : AttemptOutcome) :
    captured o ≠ some .MaxRetriesExceeded := by
  cases o with
  | transportErr m => simp [captured]
  | response s body =>
    by_cases hs : isSuccessStatus s = true <;> simp [captured, hs]

/-- **C3.** The sender performs at most `max_retries` HTTP attempts; when
every attempt fails retryably (transport failure or non-2xx, non-4xx
status) it performs exactly `max_retries` attempts with a sleep of exactly
`2^i` seconds between attempt `i` and attempt `i+1` (0-based, no jitter);
and it returns `Ok` upon the first 2xx response with no further attempts
(exactly `k + 1` calls when attempt `k` is the first success). -/
theorem send_batch_retry_policy (responses : Nat → AttemptOutcome)
    (cfg : DiagnyxConfig) :
    (send_batch_static responses cfg).numCalls ≤ cfg.max_retries ∧
    ((∀ i, i < cfg.max_retries → retryableFailure (responses i) = true) →
      (send_batch_static responses cfg).numCalls = cfg.max_retries ∧
      (send_batch_static responses cfg).delays
        = (List.range (cfg.max_retries - 1)).map (fun i => 2 ^ i)) ∧
    (∀ k, k < cfg.max_retries →
      (∀ i, i < k → retryableFailure (responses i) = true) →
      (∃ s body, responses k = .response s body ∧ isSuccessStatus s = true) →
      (send_batch_static responses cfg).result = .ok () ∧
      (send_batch_static responses cfg).numCalls = k + 1) := by
  refine ⟨sendLoopAux_numCalls_le responses cfg.max_retries 0 none, ?_, ?_⟩
  · intro hfail
    have h := sendLoopAux_all_retryable responses cfg.max_retries 0 none
      (fun i h1 h2 => hfail i (by omega))
    refine ⟨h.1, ?_⟩
    show (sendLoopAux responses cfg.max_retries 0 none).delays
      = (List.range (cfg.max_retries - 1)).map (fun i => 2 ^ i)
    rw [h.2]
    simp
  · intro k hk hfail hsucc
    exact sendLoopAux_first_success responses k cfg.max_retries 0 none hk
      (fun i hi => by simpa using hfail i hi)
      (by simpa using hsucc)

/-- Witness for C3: persistent 500 with the default `max_retries = 3`
gives 3 calls and sleeps of 1s then 2s; an immediate 200 gives `Ok` after
one call. -/
theorem send_batch_retry_policy_witness :
    (send_batch_static respAll500 (DiagnyxConfig.new "test-api-key")).numCalls = 3 ∧
    (send_batch_static respAll500 (DiagnyxConfig.new "test-api-key")).delays = [1, 2] ∧
    (send_batch_static respAll200 (DiagnyxConfig.new "test-api-key")).result = .ok () ∧
    (send_batch_static respAll200 (DiagnyxConfig.new "test-api-key")).numCalls = 1 := by
  have h1 := (send_batch_retry_policy respAll500 (DiagnyxConfig.new "test-api-key")).2.1
    (fun i _ => rfl)
  have h2 := (send_batch_retry_policy respAll200 (DiagnyxConfig.new "test-api-key")).2.2
    0 (by decide) (fun i hi => absurd hi (by omega))
    ⟨200, "ok", rfl, by decide⟩
  refine ⟨h1.1, ?_, h2.1, h2.2⟩
  rw [h1.2]
  rfl

/-- **C7.** On exhaustion the sender returns the error captured on its
final HTTP attempt (the last transport error or `ApiError`); the generic
`MaxRetriesExceeded` is returned only when no attempt captured any detail,
which happens exactly when `max_retries` is `0` and no attempt ran at
all. -/
theorem send_batch_error_most_specific (responses : Nat → AttemptOutcome)
    (cfg : DiagnyxConfig) :
    (cfg.max_retries = 0 →
      send_batch_static responses cfg = ⟨.error .MaxRetriesExceeded, 0, []⟩) ∧
    (∀ e, (send_batch_static responses cfg).result = .error e →
      0 < cfg.max_retries →
      0 < (send_batch_static responses cfg).numCalls ∧
      captured (responses ((send_batch_static responses cfg).numCalls - 1))
        = some e) ∧
    (∀ e, (send_batch_static responses cfg).result = .error e →
      e = .MaxRetriesExceeded → cfg.max_retries = 0) := by
  refine ⟨?_, ?_, ?_⟩
  · intro h0
    unfold send_batch_static
    rw [h0]
    rfl
  · intro e he hpos
    rcases sendLoopAux_error_captured responses cfg.max_retries 0 none e he with
      ⟨hr0, _, _⟩ | ⟨hn, hcap⟩
    · omega
    · exact ⟨hn, by simpa using hcap⟩
  · intro e he hMRE
    by_contra hne
    have hpos : 0 < cfg.max_retries := by omega
    rcases sendLoopAux_error_captured responses cfg.max_retries 0 none e he with
      ⟨hr0, _, _⟩ | ⟨hn, hcap⟩
    · omega
    · subst hMRE
      exact captured_ne_maxRetries _ hcap

/-- Witness for C7: persistent transport failure with `max_retries = 3`
returns the last captured transport error, and `max_retries = 0` returns
the generic `MaxRetriesExceeded` with zero calls. -/
theorem send_batch_error_most_specific_witness :
    captured (respAllTransport
      ((send_batch_static respAllTransport (DiagnyxConfig.new "test-api-key")).numCalls - 1))
      = some (.HttpError "connection refused") ∧
    send_batch_static respAllTransport
      { DiagnyxConfig.new "test-api-key" with max_retries := 0 }
      = ⟨.error .MaxRetriesExceeded, 0, []⟩ := by
  have h1 := (send_batch_error_most_specific respAllTransport
    (DiagnyxConfig.new "test-api-key")).2.1 (.HttpError "connection refused")
    rfl (by decide)
  have h2 := (send_batch_error_most_specific respAllTransport
    { DiagnyxConfig.new "test-api-key" with max_retries := 0 }).1 rfl
  exact ⟨h1.2, h2⟩

/-- Membership in a `skip_serializing_if`-guarded field. -/
theorem mem_optField_iff {kv : String × Json} {n : String} {v : Option Json} :
    kv ∈ optField n v ↔ ∃ j, v = some j ∧ kv = (n, j) := by
  cases v <;> simp [optField]

/-- The serde rendering of a `Provider` is never JSON `null`. -/
theorem providerJson_ne_null (p : Provider) : p.toJson ≠ Json.null := by
  cases p <;> simp [Provider.toJson]

/-- The serde rendering of a `CallStatus` is never JSON `null`. -/
theorem callStatusJson_ne_null (st : CallStatus) : st.toJson ≠ Json.null := by
  cases st <;> simp [CallStatus.toJson]

/-- A `skip_serializing_if` field with a snake_case name and a non-null
rendering contributes only snake_case keys and non-null values. -/
theorem snakeNonNull_optField {α : Type} {n : String} {f : α → Json}
    {v : Option α} (hn : isSnakeCase n = true) (hf : ∀ a, f a ≠ Json.null) :
    ∀ kv ∈ optField n (v.map f),
      isSnakeCase kv.1 = true ∧ kv.2 ≠ Json.null := by
  cases v with
  | none => simp [optField]
  | some a =>
    intro kv hkv
    simp [optField] at hkv
    subst hkv
    exact ⟨hn, hf a⟩

/-- Every serialized field of a record has a snake_case key and a non-null
value. -/
theorem serializeFields_snake_nonnull (c : LLMCall) :
    ∀ kv ∈ c.serializeFields, isSnakeCase kv.1 = true ∧ kv.2 ≠ Json.null := by
  unfold LLMCall.serializeFields
  repeat refine List.forall_mem_append.mpr ⟨?_, ?_⟩
  all_goals
    first
    | exact snakeNonNull_optField (by decide) (fun a => by simp)
    | (intro kv hkv
       simp only [List.mem_cons, List.not_mem_nil, or_false] at hkv
       rcases hkv with rfl | rfl | rfl <;>
         (dsimp only
          refine ⟨by decide, ?_⟩
          first
          | exact providerJson_ne_null _
          | exact callStatusJson_ne_null _
          | simp))

/-- The `endpoint` key is emitted iff the field is set. -/
theorem keyPresent_endpoint (c : LLMCall) :
    keyPresent c "endpoint" ↔ c.endpoint ≠ none := by
  cases he : c.endpoint <;>
    simp [keyPresent, LLMCall.serializeFields, he, mem_optField_iff]

/-- The `ttft_ms` key is emitted iff the field is set. -/
theorem keyPresent_ttft_ms (c : LLMCall) :
    keyPresent c "ttft_ms" ↔ c.ttft_ms ≠ none := by
  cases he : c.ttft_ms <;>
    simp [keyPresent, LLMCall.serializeFields, he, mem_optField_iff]

/-- The `error_code` key is emitted iff the field is set. -/
theorem keyPresent_error_code (c : LLMCall) :
    keyPresent c "error_code" ↔ c.error_code ≠ none := by
  cases he : c.error_code <;>
    simp [keyPresent, LLMCall.serializeFields, he, mem_optField_iff]

/-- The `error_message` key is emitted iff the field is set. -/
theorem keyPresent_error_message (c : LLMCall) :
    keyPresent c "error_message" ↔ c.error_message ≠ none := by
  cases he : c.error_message <;>
    simp [keyPresent, LLMCall.serializeFields, he, mem_optField_iff]

/-- The `project_id` key is emitted iff the field is set. -/
theorem keyPresent_project_id (c : LLMCall) :
    keyPresent c "project_id" ↔ c.project_id ≠ none := by
  cases he : c.project_id <;>
    simp [keyPresent, LLMCall.serializeFields, he, mem_optField_iff]

/-- The `environment` key is emitted iff the field is set. -/
theorem keyPresent_environment (c : LLMCall) :
    keyPresent c "environment" ↔ c.environment ≠ none := by
  cases he : c.environment <;>
    simp [keyPresent, LLMCall.serializeFields, he, mem_optField_iff]

/-- The `user_identifier` key is emitted iff the field is set. -/
theorem keyPresent_user_identifier (c : LLMCall) :
    keyPresent c "user_identifier" ↔ c.user_identifier ≠ none := by
  cases he : c.user_identifier <;>
    simp [keyPresent, LLMCall.serializeFields, he, mem_optField_iff]

/-- The `trace_id` key is emitted iff the field is set. -/
theorem keyPresent_trace_id (c : LLMCall) :
    keyPresent c "trace_id" ↔ c.trace_id ≠ none := by
  cases he : c.trace_id <;>
    simp [keyPresent, LLMCall.serializeFields, he, mem_optField_iff]

/-- The `span_id` key is emitted iff the field is set. -/
theorem keyPresent_span_id (c : LLMCall) :
    keyPresent c "span_id" ↔ c.span_id ≠ none := by
  cases he : c.span_id <;>
    simp [keyPresent, LLMCall.serializeFields, he, mem_optField_iff]

/-- The `metadata` key is emitted iff the field is set. -/
theorem keyPresent_metadata (c : LLMCall) :
    keyPresent c "metadata" ↔ c.metadata ≠ none := by
  cases he : c.metadata <;>
    simp [keyPresent, LLMCall.serializeFields, he, mem_optField_iff]

/-- The `full_prompt` key is emitted iff the field is set. -/
theorem keyPresent_full_prompt (c : LLMCall) :
    keyPresent c "full_prompt" ↔ c.full_prompt ≠ none := by
  cases he : c.full_prompt <;>
    simp [keyPresent, LLMCall.serializeFields, he, mem_optField_iff]

/-- The `full_response` key is emitted iff the field is set. -/
theorem keyPresent_full_response (c : LLMCall) :
    keyPresent c "full_response" ↔ c.full_response ≠ none := by
  cases he : c.full_response <;>
    simp [keyPresent, LLMCall.serializeFields, he, mem_optField_iff]

/-- **C8.** Every delivery attempt POSTs the JSON object
`{"calls": [Record, ...]}` with headers `Content-Type: application/json`
and `Authorization: Bearer <credential>`; each record serializes with
snake_case keys, no value is ever JSON `null`, and every unset optional
field is omitted entirely (its key absent from the object) while every set
optional field is present. -/
theorem wire_protocol_serialization (cfg : DiagnyxConfig)
    (calls : List LLMCall) :
    (buildRequest cfg calls).method = "POST" ∧
    (buildRequest cfg calls).headers
      = [("Content-Type", "application/json"),
         ("Authorization", "Bearer " ++ cfg.api_key)] ∧
    (buildRequest cfg calls).body
      = .obj [("calls", .arr (calls.map LLMCall.serialize))] ∧
    (∀ c, (∀ kv ∈ LLMCall.serializeFields c,
        isSnakeCase kv.1 = true ∧ kv.2 ≠ Json.null) ∧
      (keyPresent c "endpoint" ↔ c.endpoint ≠ none) ∧
      (keyPresent c "ttft_ms" ↔ c.ttft_ms ≠ none) ∧
      (keyPresent c "error_code" ↔ c.error_code ≠ none) ∧
      (keyPresent c "error_message" ↔ c.error_message ≠ none) ∧
      (keyPresent c "project_id" ↔ c.project_id ≠ none) ∧
      (keyPresent c "environment" ↔ c.environment ≠ none) ∧
      (keyPresent c "user_identifier" ↔ c.user_identifier ≠ none) ∧
      (keyPresent c "trace_id" ↔ c.trace_id ≠ none) ∧
      (keyPresent c "span_id" ↔ c.span_id ≠ none) ∧
      (keyPresent c "metadata" ↔ c.metadata ≠ none) ∧
      (keyPresent c "full_prompt" ↔ c.full_prompt ≠ none) ∧
      (keyPresent c "full_response" ↔ c.full_response ≠ none)) :=
  ⟨rfl, rfl, rfl, fun c =>
    ⟨serializeFields_snake_nonnull c, keyPresent_endpoint c,
     keyPresent_ttft_ms c, keyPresent_error_code c,
     keyPresent_error_message c, keyPresent_project_id c,
     keyPresent_environment c, keyPresent_user_identifier c,
     keyPresent_trace_id c, keyPresent_span_id c, keyPresent_metadata c,
     keyPresent_full_prompt c, keyPresent_full_response c⟩⟩

/-- Witness for C8 at a concrete config and record: the headers, a
concrete serialized field, and the omission of the unset `endpoint`. -/
theorem wire_protocol_serialization_witness :
    (buildRequest (DiagnyxConfig.new "test-api-key") [sampleCall]).headers
      = [("Content-Type", "application/json"),
         ("Authorization", "Bearer test-api-key")] ∧
    isSnakeCase "input_tokens" = true ∧
    ¬ keyPresent sampleCall "endpoint" := by
  have h := wire_protocol_serialization (DiagnyxConfig.new "test-api-key")
    [sampleCall]
  refine ⟨by rw [h.2.1]; rfl, ?_, ?_⟩
  · exact ((h.2.2.2 sampleCall).1
      ("input_tokens", Json.num sampleCall.input_tokens)
      (by simp [LLMCall.serializeFields, sampleCall, optField])).1
  · have h2 := (h.2.2.2 sampleCall).2.1
    simp only [sampleCall] at h2
    simpa using h2

/-- **C9.** The builder's `build()` produces a record exactly when both
`provider` and `model` have been set (it panics — returns nothing — when
either is missing), and the produced record carries the set provider and
model and a timestamp equal to the construction-time clock reading (the
builder exposes no timestamp setter, so the timestamp is always
construction time). -/
theorem builder_requires_provider_model (b : LLMCallBuilder) (now : Int) :
    ((b.build now).isSome ↔ (b.provider.isSome ∧ b.model.isSome)) ∧
    (∀ c, b.build now = some c →
      c.timestamp = now ∧ b.provider = some c.provider ∧
        b.model = some c.model) := by
  cases hp : b.provider <;> cases hm : b.model <;>
    simp [LLMCallBuilder.build, hp, hm]

/-- Witness for C9: a builder with provider and model set builds a record
with the construction timestamp; the empty builder fails. -/
theorem builder_requires_provider_model_witness :
    ((((LLMCall.builder.withProvider .openAI).withModel "gpt-4").build 7).isSome
      = true) ∧
    ((LLMCall.builder.build 7).isSome = false) ∧
    ((((LLMCall.builder.withProvider .openAI).withModel "gpt-4").build 7).map
      (fun c => c.timestamp) = some 7) := by
  have h1 := (builder_requires_provider_model
    ((LLMCall.builder.withProvider .openAI).withModel "gpt-4") 7).1
  exact ⟨h1.mpr ⟨rfl, rfl⟩, rfl, rfl⟩

/-- Rust `String::len` of a one-character-longer string. -/
theorem rustLen_cons (c : Char) (cs : List Char) :
    rustLen (c :: cs) = utf8CharLen c + rustLen cs := by
  simp [rustLen]

/-- An ASCII character occupies one UTF-8 byte. -/
theorem allAscii_utf8CharLen {c : Char} (h : c.toNat < 0x80) :
    utf8CharLen c = 1 := by
  simp [utf8CharLen, h]

/-- For an all-ASCII string the byte length is the character count. -/
theorem allAscii_rustLen {s : List Char} (h : allAscii s = true) :
    rustLen s = s.length := by
  induction s with
  | nil => rfl
  | cons c cs ih =>
    simp only [allAscii, List.all_cons, Bool.and_eq_true, decide_eq_true_eq] at h
    rw [rustLen_cons, allAscii_utf8CharLen h.1, ih (by simpa [allAscii] using h.2)]
    simp only [List.length_cons]
    omega

/-- On an all-ASCII string every byte index up to the length is a
character boundary, so slicing never panics. -/
theorem allAscii_sliceTo {s : List Char} (h : allAscii s = true) :
    ∀ n, n ≤ s.length → sliceTo s n = some (s.take n) := by
  induction s with
  | nil =>
    intro n hn
    obtain rfl : n = 0 := by simpa using hn
    rfl
  | cons c cs ih =>
    intro n hn
    cases n with
    | zero => rfl
    | succ m =>
      simp only [allAscii, List.all_cons, Bool.and_eq_true, decide_eq_true_eq] at h
      have h1 : utf8CharLen c = 1 := allAscii_utf8CharLen h.1
      unfold sliceTo
      rw [h1]
      rw [if_pos (by omega)]
      have hrec := ih (by simpa [allAscii] using h.2) m (by simpa using hn)
      simp [hrec]

/-- Truncation of an all-ASCII string always succeeds, appending the
truncation marker when the string exceeds the limit. -/
theorem allAscii_truncate (maxLen : Nat) {s : List Char}
    (h : allAscii s = true) :
    truncateContent maxLen s
      = some (if maxLen < s.length
          then s.take maxLen ++ "... [truncated]".toList else s) := by
  unfold truncateContent
  rw [allAscii_rustLen h]
  by_cases hlt : maxLen < s.length
  · rw [if_pos hlt, if_pos hlt, allAscii_sliceTo h maxLen (by omega)]
    rfl
  · rw [if_neg hlt, if_neg hlt]

/-- **C10.** `track_call_with_content` is not total: with content capture
enabled and a 1-byte limit, a non-ASCII prompt (one two-byte character)
makes the byte slice fall inside a multi-byte UTF-8 character and the
operation panics (`none` in the model) instead of returning; for all-ASCII
prompt and response of any length it always returns, and a prompt longer
than the effective limit (`content_max_length`, or `10000` when that is 0)
is truncated with `"... [truncated]"` appended. -/
theorem track_call_with_content_truncation :
    (track_call_with_content_record cfgCapture1 .anthropic "m" nonAsciiPrompt
        [] 0 0 0 5 = none ∧
      allAscii nonAsciiPrompt = false ∧
      effectiveMaxLen cfgCapture1 < rustLen nonAsciiPrompt) ∧
    (∀ (cfg : DiagnyxConfig) (provider : Provider) (model : String)
        (prompt response : List Char) (it ot lat now : Int),
      allAscii prompt = true → allAscii response = true →
      track_call_with_content_record cfg provider model prompt response
          it ot lat now ≠ none ∧
      (cfg.capture_full_content = true → effectiveMaxLen cfg < prompt.length →
        (track_call_with_content_record cfg provider model prompt response
            it ot lat now).map (fun c => c.full_prompt)
          = some (some ((prompt.take (effectiveMaxLen cfg)
              ++ "... [truncated]".toList).asString)))) := by
  refine ⟨⟨rfl, rfl, by decide⟩, ?_⟩
  intro cfg provider model prompt response it ot lat now hp hr
  by_cases hcap : cfg.capture_full_content = true
  · have htp := allAscii_truncate (effectiveMaxLen cfg) hp
    have htr := allAscii_truncate (effectiveMaxLen cfg) hr
    constructor
    · unfold track_call_with_content_record
      rw [if_pos hcap, htp, htr]
      simp [LLMCallBuilder.build, LLMCall.builder, LLMCallBuilder.withProvider,
        LLMCallBuilder.withModel, LLMCallBuilder.withFullPrompt,
        LLMCallBuilder.withFullResponse]
    · intro _ hlen
      unfold track_call_with_content_record
      rw [if_pos hcap, htp, htr, if_pos hlen]
      simp [LLMCallBuilder.build, LLMCall.builder, LLMCallBuilder.withProvider,
        LLMCallBuilder.withModel, LLMCallBuilder.withFullPrompt,
        LLMCallBuilder.withFullResponse]
  · constructor
    · unfold track_call_with_content_record
      rw [if_neg hcap]
      simp [LLMCallBuilder.build, LLMCall.builder, LLMCallBuilder.withProvider,
        LLMCallBuilder.withModel]
    · intro hc _
      exact absurd hc hcap

/-- Witness for C10 on the all-ASCII side: capture on, 1-byte limit,
prompt `"abc"` truncates to `"a... [truncated]"`. -/
theorem track_call_with_content_truncation_witness :
    track_call_with_content_record cfgCapture1 .openAI "m" "abc".toList
      "d".toList 0 0 0 5 ≠ none ∧
    (track_call_with_content_record cfgCapture1 .openAI "m" "abc".toList
        "d".toList 0 0 0 5).map (fun c => c.full_prompt)
      = some (some "a... [truncated]") := by
  have h := track_call_with_content_truncation.2 cfgCapture1 .openAI "m"
    "abc".toList "d".toList 0 0 0 5 (by decide) (by decide)
  refine ⟨h.1, ?_⟩
  have h2 := h.2 rfl (by decide)
  rw [h2]
  rfl

end Diagnyx
